import Mathlib

/-!
# golang-app: user API handlers and configuration

A shallow embedding of `internal/config/config.go`, `internal/models/user.go` and
`internal/handlers/user.go`, followed by theorems about the create / get
lifecycle of user records.

Conventions of the embedding

* Go strings are Lean strings.  The only byte-level operations of the source
  (`strings.TrimPrefix`, `strings.Split` on the one-byte separator "/") act on
  the character list, which agrees with the byte view for UTF-8 text.
* Go `int` and `int64` values are `Int`; no arithmetic is performed on them by
  the handlers, so no wrap-around arises.
* A `time.Time` is the number of nanoseconds since the Unix epoch.  Every call
  of `time.Now()` is an explicit argument of the function that performs it.
* The handler's `users` map is an association list; `mapGet` is `m[k]` and
  `mapSet` is `m[k] = v`.
* A handler returns the handler state after the call together with the
  response it wrote.  Log output is not part of the state.
* The packages `validator` and `httputil` belong to another module
  (`golang-lib`); what the handlers use of them is modelled from the
  specification and marked as such.
-/

namespace GolangApp

/-! ## Package `config` -/

namespace config

/-- The process environment: the value of each variable that is set. -/
abbrev Environ := String → Option String

/-- Go `os.Getenv`: the value of the variable, or the empty string when it is unset. -/
def Getenv (env : Environ) (key : String) : String :=
  match env key with
  | some value => value
  | none => ""

/-- The type `Config` holds application configuration. -/
structure Config where
  Port : String
  Environment : String
  LogLevel : String
  deriving DecidableEq

/-- The helper `getEnv(key, defaultValue)`: the value of the variable when it is
not the empty string, and the default otherwise. -/
def getEnv (env : Environ) (key defaultValue : String) : String :=
  let value := Getenv env key
  if value ≠ "" then value else defaultValue

/-- The function `Load` loads configuration from environment variables with defaults. -/
def Load (env : Environ) : Config :=
  { Port := getEnv env "PORT" "8080"
    Environment := getEnv env "ENVIRONMENT" "development"
    LogLevel := getEnv env "LOG_LEVEL" "info" }

end config

/-! ## Package `models` -/

namespace models

/-- A `time.Time`, as nanoseconds since the Unix epoch. -/
abbrev Time := Int

/-- The type `User` represents a user in the system. -/
structure User where
  ID : String
  Name : String
  Email : String
  Age : Int
  Role : String
  CreatedAt : Time
  deriving DecidableEq

/-- The type `CreateUserRequest` represents the request to create a new user. -/
structure CreateUserRequest where
  Name : String
  Email : String
  Age : Int
  Role : String
  deriving DecidableEq

end models

/-! ## Standard library pieces used by the handlers -/

namespace gostd

/-- The constant `http.MethodGet`. -/
def MethodGet : String := "GET"
/-- The constant `http.MethodPost`. -/
def MethodPost : String := "POST"
/-- The constant `http.StatusOK`. -/
def StatusOK : Nat := 200
/-- The constant `http.StatusBadRequest`. -/
def StatusBadRequest : Nat := 400
/-- The constant `http.StatusNotFound`. -/
def StatusNotFound : Nat := 404
/-- The constant `http.StatusMethodNotAllowed`. -/
def StatusMethodNotAllowed : Nat := 405

/-- Go `strings.TrimPrefix(s, p)`: `s` without the leading `p` when `s` starts with
`p`, and `s` itself otherwise. -/
def TrimPrefix (s p : String) : String :=
  if p.data.isPrefixOf s.data then ⟨s.data.drop p.data.length⟩ else s

/-- The pieces of a character list between the occurrences of `sep`. -/
def splitChars (sep : Char) : List Char → List (List Char)
  | [] => [[]]
  | c :: cs =>
    if c = sep then [] :: splitChars sep cs
    else
      match splitChars sep cs with
      | [] => [[c]]
      | piece :: pieces => (c :: piece) :: pieces

/-- Go `strings.Split(s, sep)` for a one-character separator. -/
def Split (s : String) (sep : Char) : List String :=
  (splitChars sep s.data).map String.mk

/-- The decimal digits of a natural number, most significant first. -/
def decimalDigits (n : Nat) : List Char := Nat.toDigits 10 n

/-- Go `fmt.Sprintf("%d", n)` for an integer `n`. -/
def formatInt (n : Int) : String :=
  match n with
  | Int.ofNat m => ⟨decimalDigits m⟩
  | Int.negSucc m => ⟨'-' :: decimalDigits (m + 1)⟩

/-- Go `Time.UnixNano`: the reading as a count of nanoseconds. -/
def UnixNano (t : models.Time) : Int := t

/-- The value of a decimal digit character. -/
def digitValue (c : Char) : Nat := c.toNat - 48

/-- The number written by a list of decimal digits. -/
def decodeDigits (cs : List Char) : Nat :=
  cs.foldl (fun acc c => 10 * acc + digitValue c) 0

end gostd

/-! ## Package `validator` (module `golang-lib`) -/

namespace validator

/-- Modelled from the spec: a violation is a single field-level validation
failure with an associated field name and reason (glossary). -/
structure Violation where
  field : String
  reason : String
  deriving DecidableEq

/-- Modelled from the spec: the message of a violation names its field
(section 4.1, `ErrorMessages`). The wording after the field name is not fixed by
the specification. -/
def Violation.message (e : Violation) : String := e.field ++ " " ++ e.reason

/-- Modelled from the spec: the validator of package `validator`, absent from
this repository, is an accumulator of the violations found so far, in the order
the checks were invoked (section 4.1). -/
structure Validator where
  errors : List Violation
  deriving DecidableEq

/-- Modelled from the spec: `validator.New`, an accumulator with no violation. -/
def New : Validator := ⟨[]⟩

/-- Modelled from the spec: recording one failed check keeps the earlier ones
and appends the new one (no short-circuit, order preserved). -/
def Validator.fail (v : Validator) (field reason : String) : Validator :=
  ⟨v.errors ++ [⟨field, reason⟩]⟩

/-- Modelled from the spec: `Required(field, value)` fails if value is empty. -/
def Validator.Required (v : Validator) (field value : String) : Validator :=
  if value = "" then v.fail field "is required" else v

/-- Modelled from the spec: `MinLength(field, value, n)` fails if the string
length is below the bound. -/
def Validator.MinLength (v : Validator) (field value : String) (n : Nat) : Validator :=
  if value.length < n then v.fail field "is too short" else v

/-- Modelled from the spec: `MaxLength(field, value, n)` fails if the string
length is above the bound. -/
def Validator.MaxLength (v : Validator) (field value : String) (n : Nat) : Validator :=
  if n < value.length then v.fail field "is too long" else v

/-- Modelled from the spec: `Range(field, value, min, max)` fails if the numeric
value falls outside [min, max] inclusive. -/
def Validator.Range (v : Validator) (field : String) (value min max : Int) : Validator :=
  if value < min ∨ max < value then v.fail field "is out of range" else v

/-- Modelled from the spec: `OneOf(field, value, allowed)` fails if value is not
a member of the allowed set (case-sensitive exact match). -/
def Validator.OneOf (v : Validator) (field value : String) (allowed : List String) :
    Validator :=
  if value ∈ allowed then v else v.fail field "is not an allowed value"

/-- Modelled from the spec: the basic address shape of section 4.1, local-part
"@" domain with the domain containing at least one ".". The text is cut at its
first "@"; the local part before it is non-empty and the domain after it
contains a ".". -/
def emailShape (value : String) : Bool :=
  match value.data.dropWhile (fun c => c ≠ '@') with
  | [] => false
  | _ :: domain => !(value.data.takeWhile (fun c => c ≠ '@')).isEmpty && domain.contains '.'

/-- Modelled from the spec: `Email(field, value)` fails if value does not match
the basic address shape. -/
def Validator.Email (v : Validator) (field value : String) : Validator :=
  if emailShape value then v else v.fail field "is not a valid email address"

/-- Modelled from the spec: `IsValid()` is true iff no check has failed so far. -/
def Validator.IsValid (v : Validator) : Bool := v.errors.isEmpty

/-- Modelled from the spec: `ErrorMessages()` is the order-preserving
concatenation of all failure messages, each naming its field. -/
def Validator.ErrorMessages (v : Validator) : String :=
  "; ".intercalate (v.errors.map Violation.message)

/-- The fields named by the accumulated violations. -/
def Validator.fields (v : Validator) : List String := v.errors.map Violation.field

end validator

/-! ## Package `httputil` (module `golang-lib`) -/

namespace httputil

/-- An incoming `http.Request`: its method, `URL.Path` and raw body. -/
structure Request where
  Method : String
  Path : String
  Body : String
  deriving DecidableEq

/-- Modelled from the spec: the payload of a response is either the error body
`{error_code, message}` or a serialized user record (section 6). -/
inductive Payload where
  | error (code message : String)
  | user (u : models.User)
  deriving DecidableEq

/-- What a handler wrote to its `http.ResponseWriter`. -/
structure Response where
  status : Nat
  payload : Payload
  deriving DecidableEq

/-- Modelled from the spec: `httputil.WriteError(w, status, code, message)`,
absent from this repository, answers with the given status and the error body
(section 6). -/
def WriteError (status : Nat) (code message : String) : Response :=
  ⟨status, Payload.error code message⟩

/-- Modelled from the spec: `httputil.WriteSuccess(w, data)`, absent from this
repository, answers 200 with the record serialized (section 6). -/
def WriteSuccess (data : models.User) : Response :=
  ⟨gostd.StatusOK, Payload.user data⟩

/-- The result type of `httputil.ReadJSON(r, &req, maxBytes)`, absent from this
repository: the decoded request, or the text of the decoding error. The decoder
itself is an argument of `CreateUser`. -/
abbrev JSONReader := Request → Nat → Except String models.CreateUserRequest

end httputil

/-! ## Package `handlers` -/

namespace handlers

open models httputil validator

/-- A Go `map[string]*models.User`. -/
abbrev UserMap := List (String × User)

/-- The map read `m[k]`, with its presence flag. -/
def mapGet : UserMap → String → Option User
  | [], _ => none
  | (k', u) :: m, k => if k' = k then some u else mapGet m k

/-- The map write `m[k] = u`: the entry for `k` is replaced when there is one
and added otherwise. -/
def mapSet : UserMap → String → User → UserMap
  | [], k, u => [(k, u)]
  | (k', u') :: m, k, u => if k' = k then (k, u) :: m else (k', u') :: mapSet m k u

/-- The type `UserHandler` handles user-related HTTP requests. -/
structure UserHandler where
  users : UserMap
  deriving DecidableEq

/-- The function `NewUserHandler` creates a new user handler, with an empty map. -/
def NewUserHandler : UserHandler := { users := [] }

/-- The function `generateID` generates a simple ID from the clock reading `now`. -/
def generateID (now : Time) : String :=
  "user_" ++ gostd.formatInt (gostd.UnixNano now)

/-- The body size cap `1<<20` that `CreateUser` passes to `ReadJSON`. -/
def maxBodyBytes : Nat := 1 <<< 20

/-- The checks `CreateUser` runs on a decoded request, in source order. -/
def validate (req : CreateUserRequest) : Validator :=
  let v := validator.New
  let v := v.Required "name" req.Name
  let v := v.MinLength "name" req.Name 2
  let v := v.MaxLength "name" req.Name 100
  let v := v.Required "email" req.Email
  let v := v.Email "email" req.Email
  let v := v.Range "age" req.Age 1 150
  let allowedRoles := ["admin", "user", "guest"]
  v.OneOf "role" req.Role allowedRoles

/-- The method `CreateUser` handles POST /api/users. `readJSON` is the body decoder,
`idNow` the clock reading taken inside `generateID` and `createdNow` the later
reading stored as `CreatedAt`. -/
def CreateUser (readJSON : JSONReader) (idNow createdNow : Time) (h : UserHandler)
    (r : Request) : UserHandler × Response :=
  if r.Method ≠ gostd.MethodPost then
    (h, WriteError gostd.StatusMethodNotAllowed "method_not_allowed" "Method not allowed")
  else
    match readJSON r maxBodyBytes with
    | Except.error err => (h, WriteError gostd.StatusBadRequest "invalid_request" err)
    | Except.ok req =>
      let v := validate req
      if !v.IsValid then
        (h, WriteError gostd.StatusBadRequest "validation_failed" v.ErrorMessages)
      else
        let user : User :=
          { ID := generateID idNow
            Name := req.Name
            Email := req.Email
            Age := req.Age
            Role := req.Role
            CreatedAt := createdNow }
        ({ h with users := mapSet h.users user.ID user }, WriteSuccess user)

/-- The method `GetUser` handles GET /api/users/{id}. -/
def GetUser (h : UserHandler) (r : Request) : UserHandler × Response :=
  if r.Method ≠ gostd.MethodGet then
    (h, WriteError gostd.StatusMethodNotAllowed "method_not_allowed" "Method not allowed")
  else
    let path := gostd.TrimPrefix r.Path "/api/users/"
    let userID := (gostd.Split path '/').headD ""
    if userID = "" then
      (h, WriteError gostd.StatusBadRequest "invalid_request" "User ID is required")
    else
      match mapGet h.users userID with
      | none => (h, WriteError gostd.StatusNotFound "user_not_found" "User not found")
      | some user => (h, WriteSuccess user)

/-- The keys of a map, in list order. -/
def mapKeys (m : UserMap) : List String := m.map Prod.fst

/-- The create-user constraints of specification sections 3 and 4.2 on the four
fields: name of 2 to 100 characters, email non-empty and of the basic address
shape, age in [1, 150], role one of "admin", "user", "guest". -/
def Constraints (name email : String) (age : Int) (role : String) : Prop :=
  (2 ≤ name.length ∧ name.length ≤ 100) ∧
  (email ≠ "" ∧ emailShape email = true) ∧
  (1 ≤ age ∧ age ≤ 150) ∧
  role ∈ ["admin", "user", "guest"]

instance (name email : String) (age : Int) (role : String) :
    Decidable (Constraints name email age role) := by
  unfold Constraints
  exact inferInstance

/-- A decoded request that meets the create-user constraints. -/
def ValidRequest (req : CreateUserRequest) : Prop :=
  Constraints req.Name req.Email req.Age req.Role

instance (req : CreateUserRequest) : Decidable (ValidRequest req) := by
  unfold ValidRequest
  exact inferInstance

/-- A stored record that meets the create-user constraints. -/
def ValidUser (u : User) : Prop :=
  Constraints u.Name u.Email u.Age u.Role

instance (u : User) : Decidable (ValidUser u) := by
  unfold ValidUser
  exact inferInstance

/-- The handler states reachable from `NewUserHandler` by any sequence of
`CreateUser` and `GetUser` requests, with any clock readings. -/
inductive Reachable (readJSON : JSONReader) : UserHandler → Prop
  | start : Reachable readJSON NewUserHandler
  | create (idNow createdNow : Time) (h : UserHandler) (r : Request) :
      Reachable readJSON h → Reachable readJSON (CreateUser readJSON idNow createdNow h r).1
  | get (h : UserHandler) (r : Request) :
      Reachable readJSON h → Reachable readJSON (GetUser h r).1

end handlers

/-! ## Sample requests -/

namespace sample

open models httputil

/-- The body of the first scenario of specification section 8. -/
def goodBody : String :=
  "\x7b\"name\":\"Al\",\"email\":\"a@b.co\",\"age\":30,\"role\":\"user\"\x7d"

/-- The body of the second scenario of specification section 8. -/
def badBody : String :=
  "\x7b\"name\":\"A\",\"email\":\"bad\",\"age\":30,\"role\":\"root\"\x7d"

/-- The request decoded from `goodBody`. -/
def goodRequest : CreateUserRequest := ⟨"Al", "a@b.co", 30, "user"⟩

/-- The request decoded from `badBody`. -/
def badRequest : CreateUserRequest := ⟨"A", "bad", 30, "root"⟩

/-- A body decoder that knows the two sample bodies and rejects every other
text. -/
def decoder : JSONReader := fun r _ =>
  if r.Body = goodBody then Except.ok goodRequest
  else if r.Body = badBody then Except.ok badRequest
  else Except.error "invalid JSON"

/-- A create request carrying `goodBody`. -/
def postGood : Request := ⟨"POST", "/api/users", goodBody⟩

/-- A create request carrying `badBody`. -/
def postBad : Request := ⟨"POST", "/api/users", badBody⟩

/-- A create request whose body is not JSON. -/
def postGarbage : Request := ⟨"POST", "/api/users", "not json"⟩

/-- The record created from `goodBody` at the clock readings `idNow` and
`createdNow`. -/
def goodUser (idNow createdNow : Time) : User :=
  ⟨handlers.generateID idNow, "Al", "a@b.co", 30, "user", createdNow⟩

/-- An environment in which only `PORT` is set. -/
def portOnly : config.Environ := fun key => if key = "PORT" then some "9090" else none

/-- An environment with the same `PORT` as `portOnly`, a log level, and
`ENVIRONMENT` set to the empty string. -/
def portAndLevel : config.Environ := fun key =>
  if key = "PORT" then some "9090"
  else if key = "LOG_LEVEL" then some "debug"
  else if key = "ENVIRONMENT" then some ""
  else none

end sample

/-! ## Auxiliary facts: maps -/


namespace handlers

open models httputil validator

theorem mapGet_mapSet_self (m : UserMap) (k : String) (u : User) :
    mapGet (mapSet m k u) k = some u := by
  induction m with
  | nil => simp [mapSet, mapGet]
  | cons e m ih =>
    obtain ⟨k', u'⟩ := e
    by_cases hk : k' = k
    · simp [mapSet, mapGet, hk]
    · simp [mapSet, mapGet, hk, ih]

theorem mapGet_mapSet_ne (m : UserMap) (k k' : String) (u : User) (hne : k' ≠ k) :
    mapGet (mapSet m k u) k' = mapGet m k' := by
  induction m with
  | nil => simp [mapSet, mapGet, Ne.symm hne]
  | cons e m ih =>
    obtain ⟨k0, u0⟩ := e
    by_cases hk : k0 = k
    · subst hk
      simp [mapSet, mapGet, Ne.symm hne]
    · by_cases hk' : k0 = k'
      · subst hk'
        simp [mapSet, mapGet, hk]
      · simp [mapSet, mapGet, hk, hk', ih]

theorem length_mapSet_of_present (m : UserMap) (k : String) (u : User)
    (hk : mapGet m k ≠ none) : (mapSet m k u).length = m.length := by
  induction m with
  | nil => simp [mapGet] at hk
  | cons e m ih =>
    obtain ⟨k0, u0⟩ := e
    by_cases h0 : k0 = k
    · simp [mapSet, h0]
    · simp only [mapGet, h0, if_false] at hk
      simp [mapSet, h0, ih hk]

theorem length_mapSet_of_absent (m : UserMap) (k : String) (u : User)
    (hk : mapGet m k = none) : (mapSet m k u).length = m.length + 1 := by
  induction m with
  | nil => simp [mapSet]
  | cons e m ih =>
    obtain ⟨k0, u0⟩ := e
    by_cases h0 : k0 = k
    · simp [mapGet, h0] at hk
    · simp only [mapGet, h0, if_false] at hk
      simp [mapSet, h0, ih hk]

theorem mem_mapSet (m : UserMap) (k : String) (u : User) (e : String × User)
    (he : e ∈ mapSet m k u) : e = (k, u) ∨ e ∈ m := by
  induction m with
  | nil => simpa [mapSet] using he
  | cons e0 m ih =>
    obtain ⟨k0, u0⟩ := e0
    by_cases h0 : k0 = k
    · simp only [mapSet, h0, if_true, List.mem_cons] at he
      rcases he with he | he
      · exact Or.inl he
      · exact Or.inr (List.mem_cons_of_mem _ he)
    · simp only [mapSet, h0, if_false, List.mem_cons] at he
      rcases he with he | he
      · exact Or.inr (by simp [he])
      · rcases ih he with h | h
        · exact Or.inl h
        · exact Or.inr (List.mem_cons_of_mem _ h)

theorem mem_of_mapGet (m : UserMap) (k : String) (u : User)
    (h : mapGet m k = some u) : (k, u) ∈ m := by
  induction m with
  | nil => simp [mapGet] at h
  | cons e0 m ih =>
    obtain ⟨k0, u0⟩ := e0
    by_cases h0 : k0 = k
    · simp only [mapGet, h0, if_true, Option.some.injEq] at h
      simp [h0, h]
    · simp only [mapGet, h0, if_false] at h
      exact List.mem_cons_of_mem _ (ih h)

theorem mapKeys_mapSet_mem (m : UserMap) (k : String) (u : User) (x : String)
    (hx : x ∈ mapKeys (mapSet m k u)) : x = k ∨ x ∈ mapKeys m := by
  simp only [mapKeys, List.mem_map] at hx ⊢
  obtain ⟨e, he, rfl⟩ := hx
  rcases mem_mapSet m k u e he with h | h
  · exact Or.inl (by simp [h])
  · exact Or.inr ⟨e, h, rfl⟩

theorem mapKeys_mapSet_nodup (m : UserMap) (k : String) (u : User)
    (hm : (mapKeys m).Nodup) : (mapKeys (mapSet m k u)).Nodup := by
  induction m with
  | nil => simp [mapSet, mapKeys]
  | cons e0 m ih =>
    obtain ⟨k0, u0⟩ := e0
    have hm' : k0 ∉ mapKeys m ∧ (mapKeys m).Nodup := by
      simpa [mapKeys] using hm
    by_cases h0 : k0 = k
    · subst h0
      simpa [mapSet, mapKeys] using hm
    · have hnot : k0 ∉ mapKeys (mapSet m k u) := by
        intro hx
        rcases mapKeys_mapSet_mem m k u k0 hx with h | h
        · exact h0 h
        · exact hm'.1 h
      have := ih hm'.2
      simp only [mapSet, h0, if_false]
      simp only [mapKeys, List.map_cons, List.nodup_cons]
      exact ⟨hnot, this⟩

end handlers


/-! ## Auxiliary facts: strings and decimal numerals -/

namespace gostd

theorem TrimPrefix_append (p rest : String) : TrimPrefix (p ++ rest) p = rest := by
  have hpre : p.data.isPrefixOf (p.data ++ rest.data) = true := by
    simp
  simp [TrimPrefix, String.data_append, hpre]

theorem splitChars_ne_nil (sep : Char) (cs : List Char) : splitChars sep cs ≠ [] := by
  cases cs with
  | nil => simp [splitChars]
  | cons c cs =>
    by_cases hc : c = sep
    · simp [splitChars, hc]
    · cases h : splitChars sep cs <;> simp [splitChars, hc, h]

theorem splitChars_head (sep : Char) (cs : List Char) :
    (splitChars sep cs).head? = some (cs.takeWhile (fun c => c ≠ sep)) := by
  induction cs with
  | nil => simp [splitChars]
  | cons c cs ih =>
    by_cases hc : c = sep
    · simp [splitChars, hc]
    · cases h : splitChars sep cs with
      | nil => exact absurd h (splitChars_ne_nil sep cs)
      | cons piece pieces =>
        rw [h] at ih
        simp only [List.head?_cons, Option.some.injEq] at ih
        simp [splitChars, hc, h, ih]

theorem Split_head (s : String) (sep : Char) :
    (Split s sep).headD "" = ⟨s.data.takeWhile (fun c => c ≠ sep)⟩ := by
  have h := splitChars_head sep s.data
  cases hs : splitChars sep s.data with
  | nil => exact absurd hs (splitChars_ne_nil sep s.data)
  | cons piece pieces =>
    rw [hs] at h
    simp only [List.head?_cons, Option.some.injEq] at h
    simp [Split, hs, h]

theorem Split_head_of_not_mem (s : String) (sep : Char) (hs : sep ∉ s.data) :
    (Split s sep).headD "" = s := by
  rw [Split_head]
  have : s.data.takeWhile (fun c => c ≠ sep) = s.data := by
    rw [List.takeWhile_eq_self_iff]
    intro c hc
    have : c ≠ sep := fun h => hs (h ▸ hc)
    simpa using this
  rw [this]

theorem digitValue_digitChar (k : Nat) (hk : k < 10) : digitValue (Nat.digitChar k) = k := by
  interval_cases k <;> decide

theorem isDigit_digitChar (k : Nat) (hk : k < 10) : (Nat.digitChar k).isDigit = true := by
  interval_cases k <;> decide

theorem toDigitsCore_append (fuel : Nat) :
    ∀ (n : Nat) (ds : List Char),
      Nat.toDigitsCore 10 fuel n ds = Nat.toDigitsCore 10 fuel n [] ++ ds := by
  induction fuel with
  | zero => intro n ds; simp [Nat.toDigitsCore]
  | succ fuel ih =>
    intro n ds
    simp only [Nat.toDigitsCore]
    by_cases h : n / 10 = 0
    · simp [h]
    · simp only [h, if_false]
      rw [ih (n / 10) (Nat.digitChar (n % 10) :: ds), ih (n / 10) [Nat.digitChar (n % 10)]]
      simp

theorem decodeDigits_toDigitsCore (fuel : Nat) :
    ∀ n : Nat, n < fuel → decodeDigits (Nat.toDigitsCore 10 fuel n []) = n := by
  induction fuel with
  | zero => intro n hn; omega
  | succ fuel ih =>
    intro n hn
    simp only [Nat.toDigitsCore]
    have hmod : n % 10 < 10 := Nat.mod_lt _ (by decide)
    by_cases h : n / 10 = 0
    · simp only [h, if_true]
      simp only [decodeDigits, List.foldl_cons, List.foldl_nil, digitValue_digitChar _ hmod]
      omega
    · simp only [h, if_false]
      rw [toDigitsCore_append fuel (n / 10) [Nat.digitChar (n % 10)]]
      have hlt : n / 10 < fuel := by omega
      have := ih (n / 10) hlt
      simp only [decodeDigits] at this
      simp only [decodeDigits, List.foldl_append, List.foldl_cons, List.foldl_nil, this,
        digitValue_digitChar _ hmod]
      omega

theorem isDigit_toDigitsCore (fuel : Nat) :
    ∀ (n : Nat) (c : Char), c ∈ Nat.toDigitsCore 10 fuel n [] → c.isDigit = true := by
  induction fuel with
  | zero => intro n c hc; simp [Nat.toDigitsCore] at hc
  | succ fuel ih =>
    intro n c hc
    simp only [Nat.toDigitsCore] at hc
    have hmod : n % 10 < 10 := Nat.mod_lt _ (by decide)
    by_cases h : n / 10 = 0
    · simp only [h, if_true, List.mem_singleton] at hc
      rw [hc]; exact isDigit_digitChar _ hmod
    · simp only [h, if_false] at hc
      rw [toDigitsCore_append fuel (n / 10) [Nat.digitChar (n % 10)]] at hc
      rcases List.mem_append.mp hc with hc | hc
      · exact ih _ _ hc
      · rw [List.mem_singleton.mp hc]; exact isDigit_digitChar _ hmod

theorem decodeDigits_decimalDigits (n : Nat) : decodeDigits (decimalDigits n) = n :=
  decodeDigits_toDigitsCore (n + 1) n (Nat.lt_succ_self n)

theorem isDigit_of_mem_decimalDigits (n : Nat) (c : Char) (hc : c ∈ decimalDigits n) :
    c.isDigit = true :=
  isDigit_toDigitsCore (n + 1) n c hc

theorem decimalDigits_injective (m n : Nat) (h : decimalDigits m = decimalDigits n) : m = n := by
  have := congrArg decodeDigits h
  simpa [decodeDigits_decimalDigits] using this

theorem formatInt_injective (a b : Int) (h : formatInt a = formatInt b) : a = b := by
  have h := congrArg String.data h
  cases a with
  | ofNat m =>
    cases b with
    | ofNat n =>
      simp only [formatInt] at h
      rw [decimalDigits_injective m n h]
    | negSucc n =>
      simp only [formatInt] at h
      have hmem : '-' ∈ decimalDigits m := by rw [h]; simp
      have := isDigit_of_mem_decimalDigits m '-' hmem
      exact absurd this (by decide)
  | negSucc m =>
    cases b with
    | ofNat n =>
      simp only [formatInt] at h
      have hmem : '-' ∈ decimalDigits n := by rw [← h]; simp
      have := isDigit_of_mem_decimalDigits n '-' hmem
      exact absurd this (by decide)
    | negSucc n =>
      simp only [formatInt, List.cons.injEq, true_and] at h
      have := decimalDigits_injective _ _ h
      have hmn : m = n := by omega
      rw [hmn]

theorem slash_not_mem_formatInt (a : Int) : '/' ∉ (formatInt a).data := by
  intro hmem
  cases a with
  | ofNat m =>
    simp only [formatInt] at hmem
    exact absurd (isDigit_of_mem_decimalDigits m '/' hmem) (by decide)
  | negSucc m =>
    simp only [formatInt, List.mem_cons] at hmem
    rcases hmem with hmem | hmem
    · exact absurd hmem (by decide)
    · exact absurd (isDigit_of_mem_decimalDigits _ '/' hmem) (by decide)

end gostd

/-! ## Auxiliary facts: validation and the handlers -/

namespace validator

theorem fields_fail (v : Validator) (field reason : String) :
    (v.fail field reason).fields = v.fields ++ [field] := by
  simp [Validator.fail, Validator.fields]

theorem fields_Required (v : Validator) (field value : String) :
    (v.Required field value).fields = v.fields ++ (if value = "" then [field] else []) := by
  unfold Validator.Required
  split <;> simp [fields_fail]

theorem fields_MinLength (v : Validator) (field value : String) (n : Nat) :
    (v.MinLength field value n).fields =
      v.fields ++ (if value.length < n then [field] else []) := by
  unfold Validator.MinLength
  split <;> simp [fields_fail]

theorem fields_MaxLength (v : Validator) (field value : String) (n : Nat) :
    (v.MaxLength field value n).fields =
      v.fields ++ (if n < value.length then [field] else []) := by
  unfold Validator.MaxLength
  split <;> simp [fields_fail]

theorem fields_Range (v : Validator) (field : String) (value lo hi : Int) :
    (v.Range field value lo hi).fields =
      v.fields ++ (if value < lo ∨ hi < value then [field] else []) := by
  unfold Validator.Range
  split <;> simp [fields_fail]

theorem fields_OneOf (v : Validator) (field value : String) (allowed : List String) :
    (v.OneOf field value allowed).fields =
      v.fields ++ (if value ∈ allowed then [] else [field]) := by
  unfold Validator.OneOf
  split <;> simp [fields_fail]

theorem fields_Email (v : Validator) (field value : String) :
    (v.Email field value).fields =
      v.fields ++ (if emailShape value = true then [] else [field]) := by
  unfold Validator.Email
  split <;> simp [fields_fail]

theorem isValid_iff_fields (v : Validator) : v.IsValid = true ↔ v.fields = [] := by
  cases v with
  | mk errors => cases errors <;> simp [Validator.IsValid, Validator.fields]

end validator

namespace handlers

open models httputil validator

theorem length_of_eq_empty (s : String) (h : s = "") : s.length = 0 := by
  subst h; rfl

theorem mem_fields_validate (req : CreateUserRequest) (f : String) :
    f ∈ (validate req).fields ↔
      (f = "name" ∧ (req.Name.length < 2 ∨ 100 < req.Name.length)) ∨
      (f = "email" ∧ (req.Email = "" ∨ emailShape req.Email = false)) ∨
      (f = "age" ∧ (req.Age < 1 ∨ 150 < req.Age)) ∨
      (f = "role" ∧ req.Role ∉ ["admin", "user", "guest"]) := by
  have hfields : (validate req).fields =
      (((((([] ++ (if req.Name = "" then ["name"] else [])) ++
        (if req.Name.length < 2 then ["name"] else [])) ++
        (if 100 < req.Name.length then ["name"] else [])) ++
        (if req.Email = "" then ["email"] else [])) ++
        (if emailShape req.Email = true then [] else ["email"])) ++
        (if req.Age < 1 ∨ 150 < req.Age then ["age"] else [])) ++
        (if req.Role ∈ ["admin", "user", "guest"] then [] else ["role"]) := by
    simp only [validate, fields_OneOf, fields_Range, fields_Email, fields_Required,
      fields_MinLength, fields_MaxLength]
    rfl
  rw [hfields]
  have hempty : req.Name = "" → req.Name.length < 2 := by
    intro h; rw [length_of_eq_empty _ h]; decide
  constructor
  · intro hmem
    simp only [List.mem_append, List.nil_append] at hmem
    rcases hmem with (((((hmem | hmem) | hmem) | hmem) | hmem) | hmem) | hmem
    · split at hmem
      · rename_i hc
        exact Or.inl ⟨by simpa using hmem, Or.inl (hempty hc)⟩
      · simp at hmem
    · split at hmem
      · rename_i hc
        exact Or.inl ⟨by simpa using hmem, Or.inl hc⟩
      · simp at hmem
    · split at hmem
      · rename_i hc
        exact Or.inl ⟨by simpa using hmem, Or.inr hc⟩
      · simp at hmem
    · split at hmem
      · rename_i hc
        exact Or.inr (Or.inl ⟨by simpa using hmem, Or.inl hc⟩)
      · simp at hmem
    · split at hmem
      · simp at hmem
      · rename_i hc
        exact Or.inr (Or.inl ⟨by simpa using hmem, Or.inr (by simpa using hc)⟩)
    · split at hmem
      · rename_i hc
        exact Or.inr (Or.inr (Or.inl ⟨by simpa using hmem, hc⟩))
      · simp at hmem
    · split at hmem
      · simp at hmem
      · rename_i hc
        exact Or.inr (Or.inr (Or.inr ⟨by simpa using hmem, hc⟩))
  · intro h
    simp only [List.mem_append, List.nil_append]
    rcases h with ⟨rfl, h | h⟩ | ⟨rfl, h | h⟩ | ⟨rfl, h⟩ | ⟨rfl, h⟩
    · exact Or.inl (Or.inl (Or.inl (Or.inl (Or.inl (Or.inr (by simp [h]))))))
    · exact Or.inl (Or.inl (Or.inl (Or.inl (Or.inr (by simp [h])))))
    · exact Or.inl (Or.inl (Or.inl (Or.inr (by simp [h]))))
    · exact Or.inl (Or.inl (Or.inr (by simp [h])))
    · exact Or.inl (Or.inr (by simp [h]))
    · exact Or.inr (by simp [h])

theorem validate_fields_eq_nil_iff (req : CreateUserRequest) :
    (validate req).fields = [] ↔ ValidRequest req := by
  rw [List.eq_nil_iff_forall_not_mem]
  simp only [mem_fields_validate, ValidRequest, Constraints]
  constructor
  · intro h
    have h1 := h "name"
    have h2 := h "email"
    have h3 := h "age"
    have h4 := h "role"
    simp only [true_and, not_or, not_and, not_lt, reduceCtorEq, false_and, or_false,
      false_or, String.reduceEq, not_false_eq_true, Bool.not_eq_false] at h1 h2 h3 h4
    refine ⟨⟨by omega, by omega⟩, ⟨h2.1, h2.2⟩, ⟨by omega, by omega⟩, ?_⟩
    by_contra hc
    exact h4 hc
  · rintro ⟨⟨ha, hb⟩, ⟨hc, hd⟩, ⟨he, hf⟩, hg⟩ f hf'
    rcases hf' with ⟨_, h | h⟩ | ⟨_, h | h⟩ | ⟨_, h | h⟩ | ⟨_, h⟩
    · omega
    · omega
    · exact hc h
    · rw [hd] at h; exact absurd h (by decide)
    · omega
    · omega
    · exact h hg

theorem validate_isValid_iff (req : CreateUserRequest) :
    (validate req).IsValid = true ↔ ValidRequest req := by
  rw [isValid_iff_fields, validate_fields_eq_nil_iff]

/-- The record `CreateUser` builds from a decoded request. -/
theorem CreateUser_of_valid (readJSON : JSONReader) (idNow createdNow : Time)
    (h : UserHandler) (r : Request) (req : CreateUserRequest)
    (hm : r.Method = gostd.MethodPost) (hb : readJSON r maxBodyBytes = Except.ok req)
    (hv : (validate req).IsValid = true) :
    CreateUser readJSON idNow createdNow h r =
      (⟨mapSet h.users (generateID idNow)
          ⟨generateID idNow, req.Name, req.Email, req.Age, req.Role, createdNow⟩⟩,
        WriteSuccess ⟨generateID idNow, req.Name, req.Email, req.Age, req.Role, createdNow⟩) := by
  simp [CreateUser, hm, hb, hv]

theorem CreateUser_of_invalid (readJSON : JSONReader) (idNow createdNow : Time)
    (h : UserHandler) (r : Request) (req : CreateUserRequest)
    (hm : r.Method = gostd.MethodPost) (hb : readJSON r maxBodyBytes = Except.ok req)
    (hv : (validate req).IsValid = false) :
    CreateUser readJSON idNow createdNow h r =
      (h, WriteError gostd.StatusBadRequest "validation_failed" (validate req).ErrorMessages) := by
  simp [CreateUser, hm, hb, hv]

/-- Every outcome of `CreateUser`: an error with the state untouched, or a
success that stores the new record under its identifier. -/
theorem CreateUser_cases (readJSON : JSONReader) (idNow createdNow : Time)
    (h : UserHandler) (r : Request) :
    (∃ status code message,
        CreateUser readJSON idNow createdNow h r = (h, WriteError status code message) ∧
        status ≠ gostd.StatusOK) ∨
    (∃ req, r.Method = gostd.MethodPost ∧ readJSON r maxBodyBytes = Except.ok req ∧
        (validate req).IsValid = true ∧
        CreateUser readJSON idNow createdNow h r =
          (⟨mapSet h.users (generateID idNow)
              ⟨generateID idNow, req.Name, req.Email, req.Age, req.Role, createdNow⟩⟩,
            WriteSuccess
              ⟨generateID idNow, req.Name, req.Email, req.Age, req.Role, createdNow⟩)) := by
  by_cases hm : r.Method = gostd.MethodPost
  · have hdec : (∃ err, readJSON r maxBodyBytes = Except.error err) ∨
        (∃ req, readJSON r maxBodyBytes = Except.ok req) := by
      cases readJSON r maxBodyBytes with
      | error err => exact Or.inl ⟨err, rfl⟩
      | ok req => exact Or.inr ⟨req, rfl⟩
    rcases hdec with ⟨err, hb⟩ | ⟨req, hb⟩
    · left
      exact ⟨gostd.StatusBadRequest, "invalid_request", err, by simp [CreateUser, hm, hb],
        by decide⟩
    · cases hv : (validate req).IsValid with
      | false =>
        left
        exact ⟨gostd.StatusBadRequest, "validation_failed", (validate req).ErrorMessages,
          CreateUser_of_invalid readJSON idNow createdNow h r req hm hb hv, by decide⟩
      | true =>
        right
        exact ⟨req, hm, hb, hv, CreateUser_of_valid readJSON idNow createdNow h r req hm hb hv⟩
  · left
    exact ⟨gostd.StatusMethodNotAllowed, "method_not_allowed", "Method not allowed",
      by simp [CreateUser, hm], by decide⟩

theorem GetUser_state (h : UserHandler) (r : Request) : (GetUser h r).1 = h := by
  unfold GetUser
  split
  · rfl
  · simp only
    split
    · rfl
    · split <;> rfl

theorem generateID_data (now : Time) :
    (generateID now).data = "user_".data ++ (gostd.formatInt now).data := by
  simp [generateID, gostd.UnixNano, String.data_append]

theorem generateID_ne_empty (now : Time) : generateID now ≠ "" := by
  intro h
  have := congrArg String.data h
  rw [generateID_data] at this
  simp at this

theorem slash_not_mem_generateID (now : Time) : '/' ∉ (generateID now).data := by
  rw [generateID_data]
  intro h
  rcases List.mem_append.mp h with h | h
  · exact absurd h (by decide)
  · exact gostd.slash_not_mem_formatInt now h

theorem generateID_injective (a b : Time) (h : generateID a = generateID b) : a = b := by
  have := congrArg String.data h
  rw [generateID_data, generateID_data] at this
  have hd := List.append_cancel_left this
  apply gostd.formatInt_injective
  exact String.ext hd

end handlers

/-! ## Create then get -/

open models httputil validator handlers

/-- Claim C1. When `CreateUser` succeeds with record `u` and leaves the state `h'`,
a GET on the path "/api/users/" followed by `u.ID` against `h'` answers 200 with
exactly `u`. The identifier is "user_" followed by the decimal clock reading, it
is non-empty and holds no "/", so the identifier cut out of the path is `u.ID`. -/
theorem create_then_get_roundtrip (readJSON : JSONReader) (idNow createdNow : Time)
    (h h' : UserHandler) (r : Request) (u : User) (body : String)
    (hc : CreateUser readJSON idNow createdNow h r = (h', WriteSuccess u)) :
    GetUser h' ⟨"GET", "/api/users/" ++ u.ID, body⟩ = (h', ⟨200, Payload.user u⟩) ∧
    u.ID = "user_" ++ gostd.formatInt idNow ∧
    u.ID ≠ "" ∧
    '/' ∉ u.ID.data ∧
    (gostd.Split (gostd.TrimPrefix ("/api/users/" ++ u.ID) "/api/users/") '/').headD "" =
      u.ID := by
  rcases CreateUser_cases readJSON idNow createdNow h r with
    ⟨status, code, message, heq, _⟩ | ⟨req, _, _, _, heq⟩
  · rw [heq] at hc
    simp [WriteError, WriteSuccess] at hc
  · rw [heq] at hc
    simp only [Prod.mk.injEq, WriteSuccess, Response.mk.injEq, Payload.user.injEq,
      true_and] at hc
    obtain ⟨hh, hu⟩ := hc
    have hid : u.ID = generateID idNow := by rw [← hu]
    have hne : u.ID ≠ "" := by rw [hid]; exact generateID_ne_empty idNow
    have hslash : '/' ∉ u.ID.data := by rw [hid]; exact slash_not_mem_generateID idNow
    have hsplit : (gostd.Split (gostd.TrimPrefix ("/api/users/" ++ u.ID) "/api/users/")
        '/').headD "" = u.ID := by
      rw [gostd.TrimPrefix_append, gostd.Split_head_of_not_mem _ _ hslash]
    have hget : mapGet h'.users u.ID = some u := by
      rw [← hh, hu, ← hid]
      exact mapGet_mapSet_self h.users u.ID u
    refine ⟨?_, ?_, hne, hslash, hsplit⟩
    · simp only [GetUser, gostd.MethodGet, ne_eq, not_true_eq_false, if_false, hsplit, hne,
        hget, WriteSuccess, gostd.StatusOK]
    · rw [hid]; simp [generateID, gostd.UnixNano]

/-- Witness for C1: the first scenario of the specification, created at clock
readings 17 and 18 and then fetched by the returned identifier. -/
theorem create_then_get_roundtrip_witness :
    CreateUser sample.decoder 17 18 NewUserHandler sample.postGood =
      (⟨[("user_17", sample.goodUser 17 18)]⟩, WriteSuccess (sample.goodUser 17 18)) ∧
    (GetUser ⟨[("user_17", sample.goodUser 17 18)]⟩
        ⟨"GET", "/api/users/" ++ (sample.goodUser 17 18).ID, ""⟩ =
      (⟨[("user_17", sample.goodUser 17 18)]⟩, ⟨200, Payload.user (sample.goodUser 17 18)⟩) ∧
    (sample.goodUser 17 18).ID = "user_" ++ gostd.formatInt 17 ∧
    (sample.goodUser 17 18).ID ≠ "" ∧
    '/' ∉ (sample.goodUser 17 18).ID.data ∧
    (gostd.Split (gostd.TrimPrefix ("/api/users/" ++ (sample.goodUser 17 18).ID)
      "/api/users/") '/').headD "" = (sample.goodUser 17 18).ID) :=
  ⟨by decide,
    create_then_get_roundtrip sample.decoder 17 18 NewUserHandler
      ⟨[("user_17", sample.goodUser 17 18)]⟩ sample.postGood (sample.goodUser 17 18) ""
      (by decide)⟩

/-! ## Validation outcomes of create -/

/-- Claim C2. For a POST whose body decodes to `req`, the violations reported by
`CreateUser` name "name" iff the name length is below 2 or above 100, "email" iff
the email is empty or not of the basic address shape, "age" iff the age is
outside [1, 150], and "role" iff the role is not "admin", "user" or "guest"; when
some field is named the answer is 400 validation_failed with the combined
message and the state is kept, and when none is named the request succeeds. -/
theorem create_names_violated_fields (readJSON : JSONReader) (idNow createdNow : Time)
    (h : UserHandler) (r : Request) (req : CreateUserRequest)
    (hm : r.Method = gostd.MethodPost) (hb : readJSON r maxBodyBytes = Except.ok req) :
    (∀ f : String, f ∈ (validate req).fields ↔
      (f = "name" ∧ (req.Name.length < 2 ∨ 100 < req.Name.length)) ∨
      (f = "email" ∧ (req.Email = "" ∨ emailShape req.Email = false)) ∨
      (f = "age" ∧ (req.Age < 1 ∨ 150 < req.Age)) ∨
      (f = "role" ∧ req.Role ∉ ["admin", "user", "guest"])) ∧
    ((validate req).fields ≠ [] →
      CreateUser readJSON idNow createdNow h r =
        (h, ⟨400, Payload.error "validation_failed" (validate req).ErrorMessages⟩)) ∧
    ((validate req).fields = [] →
      (CreateUser readJSON idNow createdNow h r).2 =
        ⟨200, Payload.user
          ⟨generateID idNow, req.Name, req.Email, req.Age, req.Role, createdNow⟩⟩) := by
  refine ⟨mem_fields_validate req, ?_, ?_⟩
  · intro hne
    have hv : (validate req).IsValid = false := by
      cases hv : (validate req).IsValid with
      | false => rfl
      | true => exact absurd ((isValid_iff_fields _).mp hv) hne
    rw [CreateUser_of_invalid readJSON idNow createdNow h r req hm hb hv]
    rfl
  · intro hnil
    have hv : (validate req).IsValid = true := (isValid_iff_fields _).mpr hnil
    rw [CreateUser_of_valid readJSON idNow createdNow h r req hm hb hv]
    rfl

/-- Witness for C2: the second scenario of the specification, name "A", email
"bad" and role "root" with age 30. -/
theorem create_names_violated_fields_witness :
    sample.postBad.Method = gostd.MethodPost ∧
    sample.decoder sample.postBad maxBodyBytes = Except.ok sample.badRequest ∧
    (validate sample.badRequest).fields = ["name", "email", "role"] ∧
    ((∀ f : String, f ∈ (validate sample.badRequest).fields ↔
      (f = "name" ∧
        (sample.badRequest.Name.length < 2 ∨ 100 < sample.badRequest.Name.length)) ∨
      (f = "email" ∧
        (sample.badRequest.Email = "" ∨ emailShape sample.badRequest.Email = false)) ∨
      (f = "age" ∧ (sample.badRequest.Age < 1 ∨ 150 < sample.badRequest.Age)) ∨
      (f = "role" ∧ sample.badRequest.Role ∉ ["admin", "user", "guest"])) ∧
    ((validate sample.badRequest).fields ≠ [] →
      CreateUser sample.decoder 17 18 NewUserHandler sample.postBad =
        (NewUserHandler,
          ⟨400, Payload.error "validation_failed"
            (validate sample.badRequest).ErrorMessages⟩)) ∧
    ((validate sample.badRequest).fields = [] →
      (CreateUser sample.decoder 17 18 NewUserHandler sample.postBad).2 =
        ⟨200, Payload.user
          ⟨generateID 17, sample.badRequest.Name, sample.badRequest.Email,
            sample.badRequest.Age, sample.badRequest.Role, 18⟩⟩)) :=
  ⟨by decide, rfl, by decide,
    create_names_violated_fields sample.decoder 17 18 NewUserHandler sample.postBad
      sample.badRequest (by decide) rfl⟩

/-- Claim C3. Whenever `CreateUser` answers with an error, the state after the
call is the state before it; and each of the three error paths (a method other
than POST, a body that does not decode, a decoded request that breaks a
constraint) is such an answer: 405, 400 invalid_request and 400
validation_failed. -/
theorem create_error_leaves_store (readJSON : JSONReader) (idNow createdNow : Time)
    (h : UserHandler) (r : Request) :
    ((CreateUser readJSON idNow createdNow h r).2.status ≠ 200 →
      (CreateUser readJSON idNow createdNow h r).1 = h) ∧
    (r.Method ≠ "POST" →
      CreateUser readJSON idNow createdNow h r =
        (h, ⟨405, Payload.error "method_not_allowed" "Method not allowed"⟩)) ∧
    (∀ err : String, r.Method = "POST" → readJSON r maxBodyBytes = Except.error err →
      CreateUser readJSON idNow createdNow h r =
        (h, ⟨400, Payload.error "invalid_request" err⟩)) ∧
    (∀ req : CreateUserRequest, r.Method = "POST" →
      readJSON r maxBodyBytes = Except.ok req → ¬ ValidRequest req →
      CreateUser readJSON idNow createdNow h r =
        (h, ⟨400, Payload.error "validation_failed" (validate req).ErrorMessages⟩)) := by
  refine ⟨?_, ?_, ?_, ?_⟩
  · intro hstatus
    rcases CreateUser_cases readJSON idNow createdNow h r with
      ⟨status, code, message, heq, _⟩ | ⟨req, _, _, _, heq⟩
    · rw [heq]
    · rw [heq] at hstatus
      exact absurd rfl hstatus
  · intro hm
    have hm' : r.Method ≠ gostd.MethodPost := hm
    simp [CreateUser, hm', WriteError, gostd.StatusMethodNotAllowed]
  · intro err hm hb
    have hm' : r.Method = gostd.MethodPost := hm
    simp [CreateUser, hm', hb, WriteError, gostd.StatusBadRequest]
  · intro req hm hb hv
    have hv' : (validate req).IsValid = false := by
      cases hv' : (validate req).IsValid with
      | false => rfl
      | true => exact absurd ((validate_isValid_iff req).mp hv') hv
    rw [CreateUser_of_invalid readJSON idNow createdNow h r req hm hb hv']
    rfl

/-- Witness for C3: a populated store met by a body that is not JSON, by a
request that breaks three constraints and by a PUT. -/
theorem create_error_leaves_store_witness :
    (CreateUser sample.decoder 21 22 ⟨[("user_17", sample.goodUser 17 18)]⟩
      sample.postGarbage).2.status ≠ 200 ∧
    (sample.postGarbage.Method = "POST" ∧
      sample.decoder sample.postGarbage maxBodyBytes = Except.error "invalid JSON") ∧
    (((CreateUser sample.decoder 21 22 ⟨[("user_17", sample.goodUser 17 18)]⟩
        sample.postGarbage).2.status ≠ 200 →
      (CreateUser sample.decoder 21 22 ⟨[("user_17", sample.goodUser 17 18)]⟩
        sample.postGarbage).1 = ⟨[("user_17", sample.goodUser 17 18)]⟩) ∧
    (sample.postGarbage.Method ≠ "POST" →
      CreateUser sample.decoder 21 22 ⟨[("user_17", sample.goodUser 17 18)]⟩
          sample.postGarbage =
        (⟨[("user_17", sample.goodUser 17 18)]⟩,
          ⟨405, Payload.error "method_not_allowed" "Method not allowed"⟩)) ∧
    (∀ err : String, sample.postGarbage.Method = "POST" →
      sample.decoder sample.postGarbage maxBodyBytes = Except.error err →
      CreateUser sample.decoder 21 22 ⟨[("user_17", sample.goodUser 17 18)]⟩
          sample.postGarbage =
        (⟨[("user_17", sample.goodUser 17 18)]⟩,
          ⟨400, Payload.error "invalid_request" err⟩)) ∧
    (∀ req : CreateUserRequest, sample.postGarbage.Method = "POST" →
      sample.decoder sample.postGarbage maxBodyBytes = Except.ok req → ¬ ValidRequest req →
      CreateUser sample.decoder 21 22 ⟨[("user_17", sample.goodUser 17 18)]⟩
          sample.postGarbage =
        (⟨[("user_17", sample.goodUser 17 18)]⟩,
          ⟨400, Payload.error "validation_failed" (validate req).ErrorMessages⟩))) :=
  ⟨by decide, ⟨by decide, rfl⟩,
    create_error_leaves_store sample.decoder 21 22 ⟨[("user_17", sample.goodUser 17 18)]⟩
      sample.postGarbage⟩

/-! ## Identifiers -/

/-- Counterexample for C4: two creates on the same handler whose `generateID`
calls read the same clock value 1700000000000000000 both succeed and are given
the same identifier, and only one record remains stored. -/
theorem generated_ids_collide :
    CreateUser sample.decoder 1700000000000000000 1700000000000000001 NewUserHandler
        sample.postGood =
      (⟨[("user_1700000000000000000",
          sample.goodUser 1700000000000000000 1700000000000000001)]⟩,
        WriteSuccess (sample.goodUser 1700000000000000000 1700000000000000001)) ∧
    CreateUser sample.decoder 1700000000000000000 1700000000000000002
        ⟨[("user_1700000000000000000",
          sample.goodUser 1700000000000000000 1700000000000000001)]⟩ sample.postGood =
      (⟨[("user_1700000000000000000",
          sample.goodUser 1700000000000000000 1700000000000000002)]⟩,
        WriteSuccess (sample.goodUser 1700000000000000000 1700000000000000002)) ∧
    (sample.goodUser 1700000000000000000 1700000000000000001).ID =
      (sample.goodUser 1700000000000000000 1700000000000000002).ID := by
  refine ⟨by decide, by decide, by decide⟩

/-- Claim C4, amended. Two successful `CreateUser` calls assign distinct
identifiers exactly when the clock readings taken by their `generateID` calls are
distinct. -/
theorem generated_ids_distinct_iff (readJSON : JSONReader)
    (idNow₁ createdNow₁ idNow₂ createdNow₂ : Time) (h₁ h₁' h₂ h₂' : UserHandler)
    (r₁ r₂ : Request) (u₁ u₂ : User)
    (hc₁ : CreateUser readJSON idNow₁ createdNow₁ h₁ r₁ = (h₁', WriteSuccess u₁))
    (hc₂ : CreateUser readJSON idNow₂ createdNow₂ h₂ r₂ = (h₂', WriteSuccess u₂)) :
    u₁.ID ≠ u₂.ID ↔ idNow₁ ≠ idNow₂ := by
  have key : ∀ (idNow createdNow : Time) (h h' : UserHandler) (r : Request) (u : User),
      CreateUser readJSON idNow createdNow h r = (h', WriteSuccess u) →
      u.ID = generateID idNow := by
    intro idNow createdNow h h' r u hc
    rcases CreateUser_cases readJSON idNow createdNow h r with
      ⟨status, code, message, heq, _⟩ | ⟨req, _, _, _, heq⟩
    · rw [heq] at hc
      simp [WriteError, WriteSuccess] at hc
    · rw [heq] at hc
      simp only [Prod.mk.injEq, WriteSuccess, Response.mk.injEq, Payload.user.injEq,
        true_and] at hc
      rw [← hc.2]
  rw [key _ _ _ _ _ _ hc₁, key _ _ _ _ _ _ hc₂]
  constructor
  · intro hne heq
    exact hne (by rw [heq])
  · intro hne heq
    exact hne (generateID_injective _ _ heq)

/-- Witness for the amended C4: a create at clock reading 17 followed on the
resulting state by a create at clock reading 19. -/
theorem generated_ids_distinct_iff_witness :
    CreateUser sample.decoder 17 18 NewUserHandler sample.postGood =
      (⟨[("user_17", sample.goodUser 17 18)]⟩, WriteSuccess (sample.goodUser 17 18)) ∧
    CreateUser sample.decoder 19 20 ⟨[("user_17", sample.goodUser 17 18)]⟩ sample.postGood =
      (⟨[("user_17", sample.goodUser 17 18), ("user_19", sample.goodUser 19 20)]⟩,
        WriteSuccess (sample.goodUser 19 20)) ∧
    ((sample.goodUser 17 18).ID ≠ (sample.goodUser 19 20).ID ↔ (17 : Time) ≠ 19) :=
  ⟨by decide, by decide,
    generated_ids_distinct_iff sample.decoder 17 18 19 20 NewUserHandler
      ⟨[("user_17", sample.goodUser 17 18)]⟩ ⟨[("user_17", sample.goodUser 17 18)]⟩
      ⟨[("user_17", sample.goodUser 17 18), ("user_19", sample.goodUser 19 20)]⟩
      sample.postGood sample.postGood (sample.goodUser 17 18) (sample.goodUser 19 20)
      (by decide) (by decide)⟩

/-! ## The created record -/

/-- Claim C5. For a POST whose body decodes to a request meeting the
constraints, `CreateUser` answers with a record whose name, email, age and role
are the request's, whose identifier is a non-empty string and whose creation
time is not before the reading `start` taken when the request began, the clock
being non-decreasing; and that record is the one stored under its identifier. -/
theorem create_record_fields (readJSON : JSONReader) (start idNow createdNow : Time)
    (h : UserHandler) (r : Request) (req : CreateUserRequest)
    (hm : r.Method = "POST") (hb : readJSON r maxBodyBytes = Except.ok req)
    (hv : ValidRequest req) (hclock : start ≤ idNow ∧ idNow ≤ createdNow) :
    ∃ u : User,
      (CreateUser readJSON idNow createdNow h r).2 = ⟨200, Payload.user u⟩ ∧
      u.Name = req.Name ∧ u.Email = req.Email ∧ u.Age = req.Age ∧ u.Role = req.Role ∧
      u.ID ≠ "" ∧
      start ≤ u.CreatedAt ∧
      mapGet (CreateUser readJSON idNow createdNow h r).1.users u.ID = some u := by
  have hv' : (validate req).IsValid = true := (validate_isValid_iff req).mpr hv
  refine ⟨⟨generateID idNow, req.Name, req.Email, req.Age, req.Role, createdNow⟩, ?_⟩
  rw [CreateUser_of_valid readJSON idNow createdNow h r req hm hb hv']
  refine ⟨rfl, rfl, rfl, rfl, rfl, generateID_ne_empty idNow, ?_, ?_⟩
  · exact le_trans hclock.1 hclock.2
  · exact mapGet_mapSet_self _ _ _

/-- Witness for C5: the first scenario of the specification, begun at clock
reading 16 with the later readings 17 and 18. -/
theorem create_record_fields_witness :
    sample.postGood.Method = "POST" ∧
    sample.decoder sample.postGood maxBodyBytes = Except.ok sample.goodRequest ∧
    ValidRequest sample.goodRequest ∧
    ((16 : Time) ≤ 17 ∧ (17 : Time) ≤ 18) ∧
    (∃ u : User,
      (CreateUser sample.decoder 17 18 NewUserHandler sample.postGood).2 =
        ⟨200, Payload.user u⟩ ∧
      u.Name = sample.goodRequest.Name ∧ u.Email = sample.goodRequest.Email ∧
      u.Age = sample.goodRequest.Age ∧ u.Role = sample.goodRequest.Role ∧
      u.ID ≠ "" ∧
      (16 : Time) ≤ u.CreatedAt ∧
      mapGet (CreateUser sample.decoder 17 18 NewUserHandler sample.postGood).1.users u.ID =
        some u) :=
  ⟨by decide, rfl, by decide, by decide,
    create_record_fields sample.decoder 16 17 18 NewUserHandler sample.postGood
      sample.goodRequest (by decide) rfl (by decide) (by decide)⟩

/-! ## Get -/

/-- Claim C6. On a path "/api/users/" followed by `rest`, `GetUser` answers 405
when the method is not GET; otherwise, with `id` the part of `rest` before its
first "/" (all of `rest` when it has none), 400 invalid_request when `id` is
empty, 404 user_not_found when `id` is not a key of the store, and 200 with the
record stored under `id` otherwise. The state is returned as it was. -/
theorem get_response_determined (h : UserHandler) (method rest body : String) :
    GetUser h ⟨method, "/api/users/" ++ rest, body⟩ =
      if method ≠ "GET" then
        (h, ⟨405, Payload.error "method_not_allowed" "Method not allowed"⟩)
      else if (⟨rest.data.takeWhile (fun c => c ≠ '/')⟩ : String) = "" then
        (h, ⟨400, Payload.error "invalid_request" "User ID is required"⟩)
      else
        match mapGet h.users ⟨rest.data.takeWhile (fun c => c ≠ '/')⟩ with
        | none => (h, ⟨404, Payload.error "user_not_found" "User not found"⟩)
        | some u => (h, ⟨200, Payload.user u⟩) := by
  simp only [GetUser, gostd.TrimPrefix_append, gostd.Split_head, gostd.MethodGet,
    WriteError, WriteSuccess, gostd.StatusOK, gostd.StatusBadRequest, gostd.StatusNotFound,
    gostd.StatusMethodNotAllowed]

/-! ## The store invariant -/

/-- Claim C7. In every handler state reachable from the empty store by
`CreateUser` and `GetUser` requests, every entry `(k, u)` of the store, whether
seen as a list entry or through the map read, has `k = u.ID` and `u` meeting all
create-user constraints; and no key occurs twice. -/
theorem reachable_store_invariant (readJSON : JSONReader) (h : UserHandler)
    (hr : Reachable readJSON h) :
    (∀ (k : String) (u : User), (k, u) ∈ h.users → k = u.ID ∧ ValidUser u) ∧
    (∀ (k : String) (u : User), mapGet h.users k = some u → k = u.ID ∧ ValidUser u) ∧
    (mapKeys h.users).Nodup := by
  have main : (∀ (k : String) (u : User), (k, u) ∈ h.users → k = u.ID ∧ ValidUser u) ∧
      (mapKeys h.users).Nodup := by
    induction hr with
    | start => simp [NewUserHandler, mapKeys]
    | create idNow createdNow h r _ ih =>
      rcases CreateUser_cases readJSON idNow createdNow h r with
        ⟨status, code, message, heq, _⟩ | ⟨req, _, _, hv, heq⟩
      · rw [heq]; exact ih
      · rw [heq]
        refine ⟨?_, mapKeys_mapSet_nodup _ _ _ ih.2⟩
        intro k u hmem
        rcases mem_mapSet _ _ _ _ hmem with hnew | hold
        · simp only [Prod.mk.injEq] at hnew
          obtain ⟨hk, hu⟩ := hnew
          subst hu
          exact ⟨hk, (validate_isValid_iff req).mp hv⟩
        · exact ih.1 k u hold
    | get h r _ ih => rw [GetUser_state]; exact ih
  exact ⟨main.1, fun k u hk => main.1 k u (mem_of_mapGet _ _ _ hk), main.2⟩

/-- Witness for C7: the state reached by a valid create, a rejected create and
a get. -/
theorem reachable_store_invariant_witness :
    Reachable sample.decoder
      (GetUser (CreateUser sample.decoder 19 20
        (CreateUser sample.decoder 17 18 NewUserHandler sample.postGood).1 sample.postBad).1
        ⟨"GET", "/api/users/user_17", ""⟩).1 ∧
    (GetUser (CreateUser sample.decoder 19 20
        (CreateUser sample.decoder 17 18 NewUserHandler sample.postGood).1 sample.postBad).1
        ⟨"GET", "/api/users/user_17", ""⟩).1 = ⟨[("user_17", sample.goodUser 17 18)]⟩ ∧
    ((∀ (k : String) (u : User),
        (k, u) ∈ (GetUser (CreateUser sample.decoder 19 20
          (CreateUser sample.decoder 17 18 NewUserHandler sample.postGood).1 sample.postBad).1
          ⟨"GET", "/api/users/user_17", ""⟩).1.users → k = u.ID ∧ ValidUser u) ∧
      (∀ (k : String) (u : User),
        mapGet (GetUser (CreateUser sample.decoder 19 20
          (CreateUser sample.decoder 17 18 NewUserHandler sample.postGood).1 sample.postBad).1
          ⟨"GET", "/api/users/user_17", ""⟩).1.users k = some u → k = u.ID ∧ ValidUser u) ∧
      (mapKeys (GetUser (CreateUser sample.decoder 19 20
          (CreateUser sample.decoder 17 18 NewUserHandler sample.postGood).1 sample.postBad).1
          ⟨"GET", "/api/users/user_17", ""⟩).1.users).Nodup) :=
  ⟨Reachable.get _ _ (Reachable.create _ _ _ _ (Reachable.create _ _ _ _ Reachable.start)),
    by decide,
    reachable_store_invariant sample.decoder _
      (Reachable.get _ _ (Reachable.create _ _ _ _ (Reachable.create _ _ _ _ Reachable.start)))⟩

/-- Claim C8. `GetUser` returns the state it was given, for every state, method
and path, and a second `GetUser` with the same request on the resulting state
gives the same response as the first. -/
theorem get_is_read_only (h : UserHandler) (r : Request) :
    (GetUser h r).1 = h ∧
    (GetUser (GetUser h r).1 r).2 = (GetUser h r).2 ∧
    GetUser (GetUser h r).1 r = GetUser h r := by
  refine ⟨GetUser_state h r, ?_, ?_⟩ <;> rw [GetUser_state]

/-! ## Configuration -/

/-- Claim C9. For every environment, `Load` gives Port, Environment and LogLevel
the values of PORT, ENVIRONMENT and LOG_LEVEL when the variable is set to a
non-empty string, and "8080", "development" and "info" when it is unset or set
to the empty string; each field is settled by its own variable alone. -/
theorem load_defaults (env : config.Environ) :
    ((∀ v : String, env "PORT" = some v → v ≠ "" → (config.Load env).Port = v) ∧
      (env "PORT" = none ∨ env "PORT" = some "" → (config.Load env).Port = "8080") ∧
      (∀ env' : config.Environ, env' "PORT" = env "PORT" →
        (config.Load env').Port = (config.Load env).Port)) ∧
    ((∀ v : String, env "ENVIRONMENT" = some v → v ≠ "" →
        (config.Load env).Environment = v) ∧
      (env "ENVIRONMENT" = none ∨ env "ENVIRONMENT" = some "" →
        (config.Load env).Environment = "development") ∧
      (∀ env' : config.Environ, env' "ENVIRONMENT" = env "ENVIRONMENT" →
        (config.Load env').Environment = (config.Load env).Environment)) ∧
    ((∀ v : String, env "LOG_LEVEL" = some v → v ≠ "" → (config.Load env).LogLevel = v) ∧
      (env "LOG_LEVEL" = none ∨ env "LOG_LEVEL" = some "" →
        (config.Load env).LogLevel = "info") ∧
      (∀ env' : config.Environ, env' "LOG_LEVEL" = env "LOG_LEVEL" →
        (config.Load env').LogLevel = (config.Load env).LogLevel)) := by
  refine ⟨⟨?_, ?_, ?_⟩, ⟨?_, ?_, ?_⟩, ⟨?_, ?_, ?_⟩⟩
  · intro v hv hne
    simp [config.Load, config.getEnv, config.Getenv, hv, hne]
  · rintro (hv | hv) <;> simp [config.Load, config.getEnv, config.Getenv, hv]
  · intro env' hv
    simp [config.Load, config.getEnv, config.Getenv, hv]
  · intro v hv hne
    simp [config.Load, config.getEnv, config.Getenv, hv, hne]
  · rintro (hv | hv) <;> simp [config.Load, config.getEnv, config.Getenv, hv]
  · intro env' hv
    simp [config.Load, config.getEnv, config.Getenv, hv]
  · intro v hv hne
    simp [config.Load, config.getEnv, config.Getenv, hv, hne]
  · rintro (hv | hv) <;> simp [config.Load, config.getEnv, config.Getenv, hv]
  · intro env' hv
    simp [config.Load, config.getEnv, config.Getenv, hv]

/-- Witness for C9: an environment in which PORT is "9090" and nothing else is
set, beside one that has the same PORT, LOG_LEVEL "debug" and an empty
ENVIRONMENT. -/
theorem load_defaults_witness :
    (sample.portOnly "PORT" = some "9090" ∧ ("9090" : String) ≠ "" ∧
      sample.portOnly "ENVIRONMENT" = none ∧ sample.portOnly "LOG_LEVEL" = none ∧
      sample.portAndLevel "PORT" = sample.portOnly "PORT" ∧
      sample.portAndLevel "ENVIRONMENT" = some "" ∧
      sample.portAndLevel "LOG_LEVEL" = some "debug" ∧ ("debug" : String) ≠ "") ∧
    (config.Load sample.portOnly).Port = "9090" ∧
    (config.Load sample.portOnly).Environment = "development" ∧
    (config.Load sample.portOnly).LogLevel = "info" ∧
    (config.Load sample.portAndLevel).Port = (config.Load sample.portOnly).Port ∧
    (config.Load sample.portAndLevel).Environment = "development" ∧
    (config.Load sample.portAndLevel).LogLevel = "debug" :=
  ⟨by decide,
    (load_defaults sample.portOnly).1.1 "9090" (by decide) (by decide),
    (load_defaults sample.portOnly).2.1.2.1 (Or.inl (by decide)),
    (load_defaults sample.portOnly).2.2.2.1 (Or.inl (by decide)),
    (load_defaults sample.portOnly).1.2.2 sample.portAndLevel (by decide),
    (load_defaults sample.portAndLevel).2.1.2.1 (Or.inr (by decide)),
    (load_defaults sample.portAndLevel).2.2.1 "debug" (by decide) (by decide)⟩

/-! ## Frame of create -/

/-- Claim C10. For a POST whose body decodes to a request meeting the
constraints, `CreateUser` succeeds whatever the store holds, and changes the
store only at the key of the generated identifier: every other key reads as
before, no key is lost, and the new record is stored under the identifier. When
the identifier was already a key the earlier record is replaced and the number
of stored entries stays the same; when it was not, the number grows by one. -/
theorem create_frame (readJSON : JSONReader) (idNow createdNow : Time)
    (h : UserHandler) (r : Request) (req : CreateUserRequest)
    (hm : r.Method = "POST") (hb : readJSON r maxBodyBytes = Except.ok req)
    (hv : ValidRequest req) :
    ∃ u : User,
      u = ⟨generateID idNow, req.Name, req.Email, req.Age, req.Role, createdNow⟩ ∧
      (CreateUser readJSON idNow createdNow h r).2 = ⟨200, Payload.user u⟩ ∧
      (∀ k : String, k ≠ u.ID →
        mapGet (CreateUser readJSON idNow createdNow h r).1.users k = mapGet h.users k) ∧
      (∀ k : String, mapGet h.users k ≠ none →
        mapGet (CreateUser readJSON idNow createdNow h r).1.users k ≠ none) ∧
      mapGet (CreateUser readJSON idNow createdNow h r).1.users u.ID = some u ∧
      (mapGet h.users u.ID ≠ none →
        (CreateUser readJSON idNow createdNow h r).1.users.length = h.users.length) ∧
      (mapGet h.users u.ID = none →
        (CreateUser readJSON idNow createdNow h r).1.users.length = h.users.length + 1) := by
  have hv' : (validate req).IsValid = true := (validate_isValid_iff req).mpr hv
  refine ⟨⟨generateID idNow, req.Name, req.Email, req.Age, req.Role, createdNow⟩, rfl, ?_⟩
  rw [CreateUser_of_valid readJSON idNow createdNow h r req hm hb hv']
  refine ⟨rfl, ?_, ?_, ?_, ?_, ?_⟩
  · intro k hk
    exact mapGet_mapSet_ne _ _ _ _ hk
  · intro k hk
    by_cases hkid : k = generateID idNow
    · subst hkid
      simp [mapGet_mapSet_self]
    · simpa [mapGet_mapSet_ne _ _ _ _ hkid] using hk
  · exact mapGet_mapSet_self _ _ _
  · intro hpresent
    exact length_mapSet_of_present _ _ _ hpresent
  · intro habsent
    exact length_mapSet_of_absent _ _ _ habsent

/-- Witness for C10: a store holding records under "user_17" and "user_19"
meets a create whose `generateID` reads the clock value 17 again. -/
theorem create_frame_witness :
    sample.postGood.Method = "POST" ∧
    sample.decoder sample.postGood maxBodyBytes = Except.ok sample.goodRequest ∧
    ValidRequest sample.goodRequest ∧
    CreateUser sample.decoder 17 30
        ⟨[("user_17", sample.goodUser 17 18), ("user_19", sample.goodUser 19 20)]⟩
        sample.postGood =
      (⟨[("user_17", sample.goodUser 17 30), ("user_19", sample.goodUser 19 20)]⟩,
        WriteSuccess (sample.goodUser 17 30)) ∧
    (∃ u : User,
      u = ⟨generateID 17, sample.goodRequest.Name, sample.goodRequest.Email,
        sample.goodRequest.Age, sample.goodRequest.Role, 30⟩ ∧
      (CreateUser sample.decoder 17 30
        ⟨[("user_17", sample.goodUser 17 18), ("user_19", sample.goodUser 19 20)]⟩
        sample.postGood).2 = ⟨200, Payload.user u⟩ ∧
      (∀ k : String, k ≠ u.ID →
        mapGet (CreateUser sample.decoder 17 30
          ⟨[("user_17", sample.goodUser 17 18), ("user_19", sample.goodUser 19 20)]⟩
          sample.postGood).1.users k =
        mapGet (⟨[("user_17", sample.goodUser 17 18),
          ("user_19", sample.goodUser 19 20)]⟩ : UserHandler).users k) ∧
      (∀ k : String,
        mapGet (⟨[("user_17", sample.goodUser 17 18),
          ("user_19", sample.goodUser 19 20)]⟩ : UserHandler).users k ≠ none →
        mapGet (CreateUser sample.decoder 17 30
          ⟨[("user_17", sample.goodUser 17 18), ("user_19", sample.goodUser 19 20)]⟩
          sample.postGood).1.users k ≠ none) ∧
      mapGet (CreateUser sample.decoder 17 30
        ⟨[("user_17", sample.goodUser 17 18), ("user_19", sample.goodUser 19 20)]⟩
        sample.postGood).1.users u.ID = some u ∧
      (mapGet (⟨[("user_17", sample.goodUser 17 18),
          ("user_19", sample.goodUser 19 20)]⟩ : UserHandler).users u.ID ≠ none →
        (CreateUser sample.decoder 17 30
          ⟨[("user_17", sample.goodUser 17 18), ("user_19", sample.goodUser 19 20)]⟩
          sample.postGood).1.users.length =
        (⟨[("user_17", sample.goodUser 17 18),
          ("user_19", sample.goodUser 19 20)]⟩ : UserHandler).users.length) ∧
      (mapGet (⟨[("user_17", sample.goodUser 17 18),
          ("user_19", sample.goodUser 19 20)]⟩ : UserHandler).users u.ID = none →
        (CreateUser sample.decoder 17 30
          ⟨[("user_17", sample.goodUser 17 18), ("user_19", sample.goodUser 19 20)]⟩
          sample.postGood).1.users.length =
        (⟨[("user_17", sample.goodUser 17 18),
          ("user_19", sample.goodUser 19 20)]⟩ : UserHandler).users.length + 1)) :=
  ⟨by decide, rfl, by decide, by decide,
    create_frame sample.decoder 17 30
      ⟨[("user_17", sample.goodUser 17 18), ("user_19", sample.goodUser 19 20)]⟩
      sample.postGood sample.goodRequest (by decide) rfl (by decide)⟩

end GolangApp
